import Mathlib

/-!
Shallow embedding of the Narrative Metrics Engine
(`src/backend/backend.py` and `src/utils.py`).

Conventions of the embedding:
* calendar dates are integer day numbers (`ℤ`);
* SQL `double precision` / Python `float` values are modelled as exact
  rationals where the source only adds, divides and compares, and as real
  numbers where the source takes a square root (`STDDEV_SAMP`);
* SQL `NULL` / Python `None` is `Option`;
* a pandas DataFrame with columns `date, intensity` is a list of rows.
-/

namespace Narratives

/-- `_percent_rank` from `src/backend/backend.py`:
`rank = 1 + count(values < x)`, `percent_rank = (rank - 1) / (n - 1)`
when `n > 1` else `0`. Polymorphic over the linearly ordered value type
(the source applies it to Python floats). -/
def percent_rank {α : Type} [LinearOrder α] (window_values : List α) (x : α) : ℚ :=
  let n := window_values.length
  if n ≤ 1 then 0
  else
    let less := window_values.countP (fun v => decide (v < x))
    let rank := 1 + less
    ((rank : ℚ) - 1) / ((n : ℚ) - 1)

/-- One row of the DataFrame handed to `calculate_horizon_moves`
(`src/utils.py`): a date and an intensity value. -/
structure HRow where
  date : ℤ
  intensity : ℚ
deriving DecidableEq

/-- `metrics_df[metrics_df['date'] == d]['intensity'].iloc[0]` as used in
`calculate_horizon_moves`: the intensity of the first row carrying date `d`,
or `none` when no row matches. -/
def find_intensity (df : List HRow) (d : ℤ) : Option ℚ :=
  (df.find? (fun r => decide (r.date = d))).map (fun r => r.intensity)

/-- `calculate_horizon_moves` from `src/utils.py`.  If the target date is
absent every horizon maps to `none`; otherwise each horizon `h` maps to
`intensity(d) - intensity(d - h)` when date `d - h` is present and to
`none` otherwise.  The returned Python dict (keyed by horizon, insertion
order) is modelled as an association list. -/
def calculate_horizon_moves (df : List HRow) (target_date : ℤ) (horizons : List ℤ) :
    List (ℤ × Option ℚ) :=
  match find_intensity df target_date with
  | none => horizons.map (fun h => (h, none))
  | some ti =>
    horizons.map (fun h =>
      (h, match find_intensity df (target_date - h) with
          | none => none
          | some hi => some (ti - hi)))

/-- An alert produced by `detect_alerts` (`src/utils.py`): the dict
`{"horizon": h, "move": m, "abs_move": |m|}`. -/
structure Alert where
  horizon : ℤ
  move : ℚ
  abs_move : ℚ
deriving DecidableEq

/-- `detect_alerts` from `src/utils.py`: keep the horizons whose move is
present and whose absolute value strictly exceeds the threshold. -/
def detect_alerts (moves_dict : List (ℤ × Option ℚ)) (threshold : ℚ) : List Alert :=
  moves_dict.filterMap (fun p =>
    match p.2 with
    | none => none
    | some m => if |m| > threshold then some ⟨p.1, m, |m|⟩ else none)

end Narratives

namespace Narratives

/-- A row of the `articles` table as consumed by the metrics query: an
identifying key, a narrative label (`primary_label_v2`), a publication
date truncated to a day number, and an optional sentiment score. -/
structure Article where
  id : ℕ
  primary_label_v2 : String
  published_day : ℤ
  sentiment_score : Option ℚ
deriving DecidableEq

/-- The `daily_items` CTE: `SELECT DISTINCT id, published_at::date,
sentiment_score FROM articles WHERE primary_label_v2 = $1 AND
published_at::date BETWEEN $2 AND $3`.  Each distinct
(id, date, score) triple appears once. -/
def daily_items (articles : List Article) (narrative : String)
    (calc_start end_date : ℤ) : List (ℕ × ℤ × Option ℚ) :=
  ((articles.filter (fun a =>
      decide (a.primary_label_v2 = narrative) &&
      decide (calc_start ≤ a.published_day) &&
      decide (a.published_day ≤ end_date))).map
    (fun a => (a.id, a.published_day, a.sentiment_score))).dedup

/-- `COUNT(*)` of the `daily_agg` CTE for one day, combined with the
`COALESCE(article_count, 0)` of the calendar left join: number of
deduplicated items on day `d` (0 when the day has none). -/
def day_count (items : List (ℕ × ℤ × Option ℚ)) (d : ℤ) : ℕ :=
  (items.filter (fun it => decide (it.2.1 = d))).length

/-- `AVG(sentiment_score)` of the `daily_agg` CTE for one day, combined
with the calendar left join: SQL `AVG` ignores `NULL` scores, and returns
`NULL` when no non-`NULL` score exists on day `d` (in particular on
zero-item days). -/
def day_sentiment (items : List (ℕ × ℤ × Option ℚ)) (d : ℤ) : Option ℚ :=
  let scores := (items.filter (fun it => decide (it.2.1 = d))).filterMap
    (fun it => it.2.2)
  if scores.length = 0 then none else some (scores.sum / scores.length)

/-- The `calendar` CTE: `generate_series(calc_start, end_date, '1 day')`,
the dense ascending list of day numbers from `lo` to `hi` inclusive
(empty when `hi < lo`). -/
def calendar (lo hi : ℤ) : List ℤ :=
  (List.range (hi - lo + 1).toNat).map (fun (k : ℕ) => lo + (k : ℤ))

/-- The SQL window frame `ROWS BETWEEN win PRECEDING AND 1 PRECEDING` on
the series ordered by date: for the row at position `t`, the values at
positions `t-win .. t-1` (clipped at the start of the series). -/
def prior_window {α : Type} (xs : List α) (win t : ℕ) : List α :=
  (xs.take t).drop (t - win)

/-- SQL `AVG` over a window of counts: `NULL` on an empty window. -/
def sql_avg (ws : List ℕ) : Option ℚ :=
  if ws.length = 0 then none else some ((ws.sum : ℚ) / (ws.length : ℚ))

/-- The sample variance of a window of counts (divide by `n - 1`), the
square of SQL `STDDEV_SAMP`. -/
def samp_var (ws : List ℕ) : ℚ :=
  let m := (ws.sum : ℚ) / (ws.length : ℚ)
  (ws.map (fun x => ((x : ℚ) - m) ^ 2)).sum / ((ws.length : ℚ) - 1)

/-- SQL `STDDEV_SAMP` over a window of counts: `NULL` when fewer than two
values, otherwise the square root of the sample variance. -/
noncomputable def sql_stddev_samp (ws : List ℕ) : Option ℝ :=
  if ws.length < 2 then none else some (Real.sqrt ((samp_var ws : ℚ) : ℝ))

/-- The `intensity` column of the metrics query: `CASE WHEN baseline_n = 0
THEN 0.0 ELSE (article_count - COALESCE(rolling_mean, 0.0)) /
GREATEST(COALESCE(rolling_std, 0.0), epsilon) END`, where `baseline_n =
COUNT(article_count)` over the prior window (counts are never `NULL` in
the dense series, so it is the window length). -/
noncomputable def sql_intensity (counts : List ℕ) (win : ℕ) (eps : ℚ) (t : ℕ) : ℝ :=
  let ws := prior_window counts win t
  if ws.length = 0 then 0
  else ((counts.getD t 0 : ℝ) - (((sql_avg ws).getD 0 : ℚ) : ℝ)) /
    max ((sql_stddev_samp ws).getD 0) ((eps : ℝ))

/-- The Python percentile-loop slice `xs[start_idx : i + 1]` with
`start_idx = max(0, i - pwin + 1)`: the trailing window of up to `pwin`
positions ending at and including position `i`. -/
def trailing_slice {α : Type} (xs : List α) (pwin i : ℕ) : List α :=
  (xs.take (i + 1)).drop (i + 1 - pwin)

/-- The Python `intensity_pcts` list: for each position `i`, the
percent-rank of `intensities[i]` within its trailing slice. -/
noncomputable def intensity_pcts (ints : List ℝ) (pwin : ℕ) : List ℚ :=
  (List.range ints.length).map (fun i =>
    percent_rank (trailing_slice ints pwin i) (ints.getD i 0))

/-- The Python `sentiment_pcts` list: `None` on days without sentiment;
otherwise the percent-rank of `sentiments[i]` within the non-`None`
values of its trailing slice. -/
def sentiment_pcts (sents : List (Option ℚ)) (pwin : ℕ) : List (Option ℚ) :=
  (List.range sents.length).map (fun i =>
    match sents.getD i none with
    | none => none
    | some x => some (percent_rank ((trailing_slice sents pwin i).filterMap id) x))

/-- The `Metric` response model of `src/backend/backend.py`. -/
structure Metric where
  date : ℤ
  article_count : ℕ
  rolling_mean : ℚ
  rolling_std : ℝ
  intensity : ℝ
  sentiment_mean : Option ℚ
  intensity_percentile : ℚ
  sentiment_percentile : Option ℚ

/-- `win = max(1, min(int(window), 365))` from the handler. -/
def core_win (window : ℤ) : ℕ := (max 1 (min window 365)).toNat

/-- `pwin = max(1, min(int(percentile_window), 730))` from the handler. -/
def core_pwin (percentile_window : ℤ) : ℕ := (max 1 (min percentile_window 730)).toNat

/-- `history_days = max(win, pwin)` from the handler. -/
def core_history (window percentile_window : ℤ) : ℕ :=
  max (core_win window) (core_pwin percentile_window)

/-- `calc_start = start_date - timedelta(days=history_days)`. -/
def core_calc_start (start_date window percentile_window : ℤ) : ℤ :=
  start_date - (core_history window percentile_window : ℤ)

/-- The dates of the full fetched series (lookback included). -/
def core_dates (start_date end_date window percentile_window : ℤ) : List ℤ :=
  calendar (core_calc_start start_date window percentile_window) end_date

/-- The deduplicated items feeding the fetched series. -/
def core_items (articles : List Article) (narrative : String)
    (start_date end_date window percentile_window : ℤ) : List (ℕ × ℤ × Option ℚ) :=
  daily_items articles narrative
    (core_calc_start start_date window percentile_window) end_date

/-- The Python `counts` list (one count per calendar day, 0 on empty days). -/
def core_counts (articles : List Article) (narrative : String)
    (start_date end_date window percentile_window : ℤ) : List ℕ :=
  (core_dates start_date end_date window percentile_window).map
    (day_count (core_items articles narrative start_date end_date window percentile_window))

/-- The Python `sentiments` list (one optional mean per calendar day). -/
def core_sents (articles : List Article) (narrative : String)
    (start_date end_date window percentile_window : ℤ) : List (Option ℚ) :=
  (core_dates start_date end_date window percentile_window).map
    (day_sentiment (core_items articles narrative start_date end_date window percentile_window))

/-- The Python `intensities` list (the SQL `intensity` column, row by row). -/
noncomputable def core_ints (articles : List Article) (narrative : String)
    (start_date end_date window percentile_window : ℤ) (epsilon : ℚ) : List ℝ :=
  (List.range (core_dates start_date end_date window percentile_window).length).map
    (sql_intensity (core_counts articles narrative start_date end_date window percentile_window)
      (core_win window) epsilon)

/-- The `Metric` row assembled for position `i` of the fetched series. -/
noncomputable def core_row (articles : List Article) (narrative : String)
    (start_date end_date window percentile_window : ℤ) (epsilon : ℚ) (i : ℕ) : Metric :=
  { date := (core_dates start_date end_date window percentile_window).getD i 0
    article_count :=
      (core_counts articles narrative start_date end_date window percentile_window).getD i 0
    rolling_mean := (sql_avg (prior_window
      (core_counts articles narrative start_date end_date window percentile_window)
      (core_win window) i)).getD 0
    rolling_std := (sql_stddev_samp (prior_window
      (core_counts articles narrative start_date end_date window percentile_window)
      (core_win window) i)).getD 0
    intensity :=
      (core_ints articles narrative start_date end_date window percentile_window epsilon).getD i 0
    sentiment_mean :=
      (core_sents articles narrative start_date end_date window percentile_window).getD i none
    intensity_percentile := (intensity_pcts
      (core_ints articles narrative start_date end_date window percentile_window epsilon)
      (core_pwin percentile_window)).getD i 0
    sentiment_percentile := (sentiment_pcts
      (core_sents articles narrative start_date end_date window percentile_window)
      (core_pwin percentile_window)).getD i none }

/-- All rows of the fetched series (lookback included), in date order. -/
noncomputable def all_rows (articles : List Article) (narrative : String)
    (start_date end_date window percentile_window : ℤ) (epsilon : ℚ) : List Metric :=
  (List.range (core_dates start_date end_date window percentile_window).length).map
    (core_row articles narrative start_date end_date window percentile_window epsilon)

/-- The body of the `narrative_metrics` handler after parameter
validation: runs the SQL query over the calendar extended by
`max(win, pwin)` days of lookback, computes trailing percentiles in
Python, and keeps only the rows with `start_date <= d <= end_date`. -/
noncomputable def narrative_metrics_core (articles : List Article) (narrative : String)
    (start_date end_date : ℤ) (window percentile_window : ℤ) (epsilon : ℚ) :
    List Metric :=
  (all_rows articles narrative start_date end_date window percentile_window epsilon).filter
    (fun r => decide (start_date ≤ r.date) && decide (r.date ≤ end_date))

/-- The FastAPI `Query` constraints declared on the endpoint parameters:
`window ∈ [1, 365]` (`ge=1, le=365`), `percentile_window ∈ [1, 730]`,
`epsilon ∈ (0, 10]` (`gt=0.0, le=10.0`).  FastAPI rejects a request
violating any of these before the handler body runs. -/
def valid_params (window percentile_window : ℤ) (epsilon : ℚ) : Bool :=
  decide (1 ≤ window) && decide (window ≤ 365) &&
  decide (1 ≤ percentile_window) && decide (percentile_window ≤ 730) &&
  decide (0 < epsilon) && decide (epsilon ≤ 10)

/-- The `/narratives/.../metrics` endpoint with explicit dates: framework
validation of the query parameters (HTTP 422), then the handler's own
check `start_date > end_date` (HTTP 400), then the metrics computation. -/
noncomputable def narrative_metrics_endpoint (articles : List Article) (narrative : String)
    (start_date end_date : ℤ) (window percentile_window : ℤ) (epsilon : ℚ) :
    Except String (List Metric) :=
  if valid_params window percentile_window epsilon = false then
    Except.error ("422 invalid query parameter")
  else if decide (start_date > end_date) then
    Except.error ("400 start_date must be on or before end_date")
  else
    Except.ok (narrative_metrics_core articles narrative start_date end_date
      window percentile_window epsilon)

/-- A percent-rank of a value belonging to its window lies in `[0, 1]`. -/
theorem percent_rank_mem_bounds {α : Type} [LinearOrder α] (w : List α) (x : α)
    (hx : x ∈ w) : 0 ≤ percent_rank w x ∧ percent_rank w x ≤ 1 := by
  by_cases h : w.length ≤ 1
  · constructor <;> simp [percent_rank, h]
  · have h2 : 2 ≤ w.length := by omega
    have hlt : w.countP (fun v => decide (v < x)) < w.length := by
      refine lt_of_le_of_ne (List.countP_le_length _) (fun heq => ?_)
      have := List.countP_eq_length.mp heq x hx
      simp at this
    have hpos : (0 : ℚ) < (w.length : ℚ) - 1 := by
      have : (2 : ℚ) ≤ (w.length : ℚ) := by exact_mod_cast h2
      linarith
    have hle : (w.countP (fun v => decide (v < x)) : ℚ) + 1 ≤ (w.length : ℚ) := by
      exact_mod_cast hlt
    have hc0 : (0 : ℚ) ≤ (w.countP (fun v => decide (v < x)) : ℚ) := Nat.cast_nonneg _
    simp only [percent_rank, h, if_false]
    constructor
    · apply div_nonneg _ (le_of_lt hpos)
      push_cast
      linarith
    · rw [div_le_one hpos]
      push_cast
      linarith

/-- The value at position `i` belongs to its own trailing slice as soon as
the slice spans at least one position. -/
theorem getD_mem_trailing_slice {α : Type} (xs : List α) (pwin i : ℕ) (d : α)
    (hi : i < xs.length) (hp : 1 ≤ pwin) : xs.getD i d ∈ trailing_slice xs pwin i := by
  have htake : xs.take (i + 1) = xs.take i ++ [xs[i]] :=
    Eq.symm (List.take_concat_get' xs i hi)
  have hk : i + 1 - pwin ≤ (xs.take i).length := by
    simp
    omega
  rw [List.getD_eq_getElem xs d hi]
  simp only [trailing_slice, htake]
  rw [List.drop_append_of_le_length hk]
  exact List.mem_append_right _ (List.mem_singleton_self _)

/-- Unfolding `intensity_pcts` at a position of the series. -/
theorem intensity_pcts_getD (ints : List ℝ) (pwin i : ℕ) (hi : i < ints.length) :
    (intensity_pcts ints pwin).getD i 0 =
      percent_rank (trailing_slice ints pwin i) (ints.getD i 0) := by
  have hlen : i < (intensity_pcts ints pwin).length := by
    simp [intensity_pcts]
    omega
  rw [List.getD_eq_getElem _ _ hlen]
  simp [intensity_pcts]

/-- Unfolding `sentiment_pcts` at a position of the series. -/
theorem sentiment_pcts_getD (sents : List (Option ℚ)) (pwin i : ℕ)
    (hi : i < sents.length) :
    (sentiment_pcts sents pwin).getD i none =
      match sents.getD i none with
      | none => none
      | some x =>
        some (percent_rank ((trailing_slice sents pwin i).filterMap id) x) := by
  have hlen : i < (sentiment_pcts sents pwin).length := by
    simp [sentiment_pcts]
    omega
  rw [List.getD_eq_getElem _ _ hlen]
  simp [sentiment_pcts]

/-- A list filtered by a predicate that holds exactly from position `H`
onwards is the suffix from position `H`. -/
theorem filter_eq_drop_of_threshold {α : Type} (l : List α) (p : α → Bool) (H : ℕ)
    (h : ∀ (i : ℕ) (hi : i < l.length), p l[i] = decide (H ≤ i)) :
    l.filter p = l.drop H := by
  induction l generalizing H with
  | nil => simp
  | cons a l ih =>
    cases H with
    | zero =>
      have ha : p a = true := by
        have := h 0 (by simp)
        simpa using this
      rw [List.filter_cons_of_pos ha, List.drop_zero]
      have hrest : l.filter p = l.drop 0 := by
        apply ih
        intro i hi
        have := h (i + 1) (by simp; omega)
        simpa using this
      rw [hrest, List.drop_zero]
    | succ H' =>
      have ha : p a = false := by
        have := h 0 (by simp)
        simpa using this
      rw [List.filter_cons_of_neg (by simp [ha]), List.drop_succ_cons]
      apply ih
      intro i hi
      have := h (i + 1) (by simp; omega)
      rw [List.getElem_cons_succ] at this
      rw [this]
      simp [Nat.succ_le_succ_iff]

/-- Mapping positions back through `getD` recovers the list. -/
theorem map_getD_range {α : Type} (l : List α) (d : α) :
    (List.range l.length).map (fun i => l.getD i d) = l := by
  apply List.ext_getElem
  · rw [List.length_map, List.length_range]
  · intro i h1 h2
    rw [List.getElem_map, List.getElem_range]
    exact List.getD_eq_getElem l d h2

theorem calendar_length (lo hi : ℤ) : (calendar lo hi).length = (hi - lo + 1).toNat := by
  rw [calendar, List.length_map, List.length_range]

theorem calendar_getElem (lo hi : ℤ) (i : ℕ) (h : i < (calendar lo hi).length) :
    (calendar lo hi)[i] = lo + (i : ℤ) := by
  simp only [calendar, List.getElem_map, List.getElem_range]

/-- Dropping the first `H` days of a dense calendar shifts its start. -/
theorem calendar_drop (lo hi : ℤ) (H : ℕ) (h : lo + (H : ℤ) ≤ hi + 1) :
    (calendar lo hi).drop H = calendar (lo + (H : ℤ)) hi := by
  apply List.ext_getElem
  · rw [List.length_drop, calendar_length, calendar_length]
    omega
  · intro i h1 h2
    have hHi : H + i < (calendar lo hi).length := by
      simp [calendar] at h1 ⊢
      omega
    rw [List.getElem_drop]
    rw [calendar_getElem lo hi (H + i) hHi]
    rw [calendar_getElem _ hi i h2]
    push_cast
    ring

theorem core_dates_getD (sd ed w p : ℤ) (i : ℕ)
    (h : i < (core_dates sd ed w p).length) :
    (core_dates sd ed w p).getD i 0 = core_calc_start sd w p + (i : ℤ) := by
  rw [List.getD_eq_getElem _ _ h]
  exact calendar_getElem _ ed i h

theorem all_rows_length (articles : List Article) (narrative : String)
    (sd ed w p : ℤ) (e : ℚ) :
    (all_rows articles narrative sd ed w p e).length = (core_dates sd ed w p).length := by
  simp [all_rows]

theorem all_rows_getElem (articles : List Article) (narrative : String)
    (sd ed w p : ℤ) (e : ℚ) (i : ℕ)
    (h : i < (all_rows articles narrative sd ed w p e).length) :
    (all_rows articles narrative sd ed w p e)[i] =
      core_row articles narrative sd ed w p e i := by
  simp [all_rows]

/-- The handler's final date filter keeps exactly the rows past the
lookback history: the output is the suffix of the fetched series. -/
theorem core_eq_drop (articles : List Article) (narrative : String)
    (sd ed w p : ℤ) (e : ℚ) :
    narrative_metrics_core articles narrative sd ed w p e =
      (all_rows articles narrative sd ed w p e).drop (core_history w p) := by
  apply filter_eq_drop_of_threshold
  intro i hi
  have hdlen : i < (core_dates sd ed w p).length := by
    rw [all_rows_length] at hi
    exact hi
  have hdate : ((all_rows articles narrative sd ed w p e)[i]).date =
      core_calc_start sd w p + (i : ℤ) := by
    rw [all_rows_getElem articles narrative sd ed w p e i hi]
    show (core_dates sd ed w p).getD i 0 = core_calc_start sd w p + (i : ℤ)
    exact core_dates_getD sd ed w p i hdlen
  have hub : core_calc_start sd w p + (i : ℤ) ≤ ed := by
    have := hdlen
    rw [core_dates, calendar_length] at this
    simp only [core_calc_start] at *
    omega
  rw [hdate]
  by_cases hH : core_history w p ≤ i
  · have h1 : sd ≤ core_calc_start sd w p + (i : ℤ) := by
      simp only [core_calc_start]
      omega
    simp [h1, hub, hH]
  · have h1 : ¬ (sd ≤ core_calc_start sd w p + (i : ℤ)) := by
      simp only [core_calc_start]
      omega
    simp [h1, hH]

/-- The dates of the fetched series, read back off the rows. -/
theorem all_rows_map_date (articles : List Article) (narrative : String)
    (sd ed w p : ℤ) (e : ℚ) :
    (all_rows articles narrative sd ed w p e).map (fun r => r.date) =
      core_dates sd ed w p := by
  apply List.ext_getElem
  · rw [List.length_map, all_rows_length]
  · intro i h1 h2
    rw [List.getElem_map]
    have hi2 : i < (all_rows articles narrative sd ed w p e).length := by
      rw [List.length_map] at h1
      exact h1
    rw [all_rows_getElem articles narrative sd ed w p e i hi2]
    show (core_dates sd ed w p).getD i 0 = _
    rw [core_dates_getD sd ed w p i h2]
    exact (calendar_getElem _ ed i h2).symm

/-- C7: for a valid request the returned series carries exactly one row
per calendar day of `[start_date, end_date]` inclusive, in ascending
order with no gaps; lookback rows before `start_date` are excluded. -/
theorem returned_dates (articles : List Article) (narrative : String)
    (sd ed w p : ℤ) (e : ℚ) (h : sd ≤ ed) :
    (narrative_metrics_core articles narrative sd ed w p e).map (fun r => r.date) =
      calendar sd ed := by
  rw [core_eq_drop]
  rw [List.map_drop]
  rw [all_rows_map_date]
  have hcs : core_calc_start sd w p + (core_history w p : ℤ) = sd := by
    simp only [core_calc_start]
    ring
  have hdrop := calendar_drop (core_calc_start sd w p) ed (core_history w p)
    (by rw [hcs]; omega)
  rw [core_dates, hdrop, hcs]

/-- Witness for C7 at a concrete one-day request. -/
theorem returned_dates_witness :
    (0 : ℤ) ≤ 0 ∧
    (narrative_metrics_core [] "n" 0 0 1 1 1).map (fun r => r.date) = calendar 0 0 :=
  ⟨by decide, returned_dates [] "n" 0 0 1 1 1 (by decide)⟩

theorem core_pwin_pos (p : ℤ) : 1 ≤ core_pwin p := by
  rw [core_pwin]
  omega

theorem core_ints_length (articles : List Article) (narrative : String)
    (sd ed w p : ℤ) (e : ℚ) :
    (core_ints articles narrative sd ed w p e).length = (core_dates sd ed w p).length := by
  rw [core_ints, List.length_map, List.length_range]

theorem core_sents_length (articles : List Article) (narrative : String)
    (sd ed w p : ℤ) :
    (core_sents articles narrative sd ed w p).length = (core_dates sd ed w p).length := by
  rw [core_sents, List.length_map]

/-- C9: in every returned row the intensity percentile lies in `[0, 1]`
and the sentiment percentile, whenever present, lies in `[0, 1]`: the
ranked value is always a member of its own trailing window. -/
theorem percentile_bounds (articles : List Article) (narrative : String)
    (sd ed w p : ℤ) (e : ℚ) :
    List.Forall (fun r =>
      (0 ≤ r.intensity_percentile ∧ r.intensity_percentile ≤ 1) ∧
      ∀ q, r.sentiment_percentile = some q → 0 ≤ q ∧ q ≤ 1)
      (narrative_metrics_core articles narrative sd ed w p e) := by
  rw [List.forall_iff_forall_mem]
  intro r hr
  have hr2 : r ∈ all_rows articles narrative sd ed w p e :=
    List.mem_of_mem_filter hr
  rw [all_rows] at hr2
  obtain ⟨i, hmem, hrow⟩ := List.mem_map.mp hr2
  have hiN : i < (core_dates sd ed w p).length := List.mem_range.mp hmem
  subst hrow
  have hpw := core_pwin_pos p
  constructor
  · have hil : i < (core_ints articles narrative sd ed w p e).length := by
      rw [core_ints_length]
      exact hiN
    show 0 ≤ (intensity_pcts (core_ints articles narrative sd ed w p e)
        (core_pwin p)).getD i 0 ∧
      (intensity_pcts (core_ints articles narrative sd ed w p e)
        (core_pwin p)).getD i 0 ≤ 1
    rw [intensity_pcts_getD _ _ i hil]
    exact percent_rank_mem_bounds _ _
      (getD_mem_trailing_slice _ (core_pwin p) i 0 hil hpw)
  · intro q hq
    have hsl : i < (core_sents articles narrative sd ed w p).length := by
      rw [core_sents_length]
      exact hiN
    have hq2 : (sentiment_pcts (core_sents articles narrative sd ed w p)
        (core_pwin p)).getD i none = some q := hq
    rw [sentiment_pcts_getD _ _ i hsl] at hq2
    cases hs : (core_sents articles narrative sd ed w p).getD i none with
    | none => rw [hs] at hq2; simp at hq2
    | some x =>
      rw [hs] at hq2
      simp only [Option.some.injEq] at hq2
      rw [← hq2]
      have hmem2 : (some x : Option ℚ) ∈
          trailing_slice (core_sents articles narrative sd ed w p) (core_pwin p) i := by
        have hg := getD_mem_trailing_slice (core_sents articles narrative sd ed w p)
          (core_pwin p) i none hsl hpw
        rw [hs] at hg
        exact hg
      exact percent_rank_mem_bounds _ x
        (List.mem_filterMap.mpr ⟨some x, hmem2, rfl⟩)

/-- Witness for C9 at a concrete request. -/
theorem percentile_bounds_witness :
    List.Forall (fun r =>
      (0 ≤ r.intensity_percentile ∧ r.intensity_percentile ≤ 1) ∧
      ∀ q, r.sentiment_percentile = some q → 0 ≤ q ∧ q ≤ 1)
      (narrative_metrics_core [] "n" 0 0 1 1 1) :=
  percentile_bounds [] "n" 0 0 1 1 1

theorem core_sents_getD (articles : List Article) (narrative : String)
    (sd ed w p : ℤ) (i : ℕ) (h : i < (core_dates sd ed w p).length) :
    (core_sents articles narrative sd ed w p).getD i none =
      day_sentiment (core_items articles narrative sd ed w p)
        ((core_dates sd ed w p).getD i 0) := by
  have h2 : i < (core_sents articles narrative sd ed w p).length := by
    rw [core_sents_length]
    exact h
  rw [List.getD_eq_getElem _ _ h2, List.getD_eq_getElem _ _ h]
  simp only [core_sents, List.getElem_map]

theorem core_counts_getD (articles : List Article) (narrative : String)
    (sd ed w p : ℤ) (i : ℕ) (h : i < (core_dates sd ed w p).length) :
    (core_counts articles narrative sd ed w p).getD i 0 =
      day_count (core_items articles narrative sd ed w p)
        ((core_dates sd ed w p).getD i 0) := by
  have h2 : i < (core_counts articles narrative sd ed w p).length := by
    rw [core_counts, List.length_map]
    exact h
  rw [List.getD_eq_getElem _ _ h2, List.getD_eq_getElem _ _ h]
  simp only [core_counts, List.getElem_map]

/-- The daily mean sentiment is present exactly when some deduplicated
item of that day carries a non-null sentiment score. -/
theorem day_sentiment_isSome (items : List (ℕ × ℤ × Option ℚ)) (d : ℤ) :
    (day_sentiment items d).isSome = true ↔
      ∃ it ∈ items, it.2.1 = d ∧ it.2.2.isSome = true := by
  have key : ((items.filter (fun it => decide (it.2.1 = d))).filterMap
      (fun it => it.2.2)) ≠ [] ↔
      ∃ it ∈ items, it.2.1 = d ∧ it.2.2.isSome = true := by
    constructor
    · intro hne
      obtain ⟨v, hv⟩ := List.exists_mem_of_ne_nil _ hne
      obtain ⟨it, hit, hv2⟩ := List.mem_filterMap.mp hv
      have hf := List.mem_filter.mp hit
      refine ⟨it, hf.1, by simpa using hf.2, ?_⟩
      rw [hv2]
      rfl
    · rintro ⟨it, hmem, hd, hsome⟩
      obtain ⟨v, hv⟩ := Option.isSome_iff_exists.mp hsome
      intro hnil
      have hvm : v ∈ (items.filter (fun it => decide (it.2.1 = d))).filterMap
          (fun it => it.2.2) :=
        List.mem_filterMap.mpr ⟨it, List.mem_filter.mpr ⟨hmem, by simp [hd]⟩, hv⟩
      rw [hnil] at hvm
      simp at hvm
  rw [day_sentiment]
  by_cases h : ((items.filter (fun it => decide (it.2.1 = d))).filterMap
      (fun it => it.2.2)).length = 0
  · rw [← key]
    simp [h, List.length_eq_zero.mp h]
  · rw [← key]
    simp only [h, if_false]
    simp only [Option.isSome_some, true_iff]
    intro hnil
    rw [hnil] at h
    simp at h

/-- A day with a present sentiment mean has at least one item. -/
theorem day_count_pos_of_sentiment (items : List (ℕ × ℤ × Option ℚ)) (d : ℤ)
    (h : (day_sentiment items d).isSome = true) : 0 < day_count items d := by
  obtain ⟨it, hmem, hd, _⟩ := (day_sentiment_isSome items d).mp h
  rw [day_count]
  apply List.length_pos.mpr
  intro hnil
  have : it ∈ items.filter (fun it => decide (it.2.1 = d)) :=
    List.mem_filter.mpr ⟨hmem, by simp [hd]⟩
  rw [hnil] at this
  simp at this

/-- C6 counterexample: a day whose only item carries a null sentiment
score has `article_count = 1` but an absent `sentiment_mean`, so
"sentiment_mean present iff item_count > 0" fails on the computed
series. -/
theorem sentiment_presence_counterexample :
    ¬ List.Forall (fun r =>
      (r.sentiment_mean.isSome ↔ 0 < r.article_count) ∧
      (r.sentiment_percentile.isSome ↔ r.sentiment_mean.isSome))
      (narrative_metrics_core [⟨0, "n", 0, none⟩] "n" 0 0 1 1 1) := by
  decide

/-- C6 (amended): in every returned row, `sentiment_percentile` is present
iff `sentiment_mean` is present; `sentiment_mean` present implies
`item_count > 0`; and `sentiment_mean` is present iff at least one
deduplicated item of that day carries a non-null sentiment score (so a
day whose items all have null scores has a positive count but an absent
sentiment mean). -/
theorem sentiment_presence_amended (articles : List Article) (narrative : String)
    (sd ed w p : ℤ) (e : ℚ) :
    List.Forall (fun r =>
      (r.sentiment_percentile.isSome ↔ r.sentiment_mean.isSome) ∧
      (r.sentiment_mean.isSome → 0 < r.article_count) ∧
      (r.sentiment_mean.isSome ↔ ∃ it ∈ core_items articles narrative sd ed w p,
        it.2.1 = r.date ∧ it.2.2.isSome))
      (narrative_metrics_core articles narrative sd ed w p e) := by
  rw [List.forall_iff_forall_mem]
  intro r hr
  have hr2 : r ∈ all_rows articles narrative sd ed w p e :=
    List.mem_of_mem_filter hr
  rw [all_rows] at hr2
  obtain ⟨i, hmem, hrow⟩ := List.mem_map.mp hr2
  have hiN : i < (core_dates sd ed w p).length := List.mem_range.mp hmem
  subst hrow
  have hsl : i < (core_sents articles narrative sd ed w p).length := by
    rw [core_sents_length]
    exact hiN
  refine ⟨?_, ?_, ?_⟩
  · show ((sentiment_pcts (core_sents articles narrative sd ed w p)
        (core_pwin p)).getD i none).isSome = true ↔
      ((core_sents articles narrative sd ed w p).getD i none).isSome = true
    rw [sentiment_pcts_getD _ _ i hsl]
    cases hs : (core_sents articles narrative sd ed w p).getD i none <;> simp
  · intro hsm
    show 0 < (core_counts articles narrative sd ed w p).getD i 0
    rw [core_counts_getD articles narrative sd ed w p i hiN]
    apply day_count_pos_of_sentiment
    rw [← core_sents_getD articles narrative sd ed w p i hiN]
    exact hsm
  · show ((core_sents articles narrative sd ed w p).getD i none).isSome = true ↔
      ∃ it ∈ core_items articles narrative sd ed w p,
        it.2.1 = (core_dates sd ed w p).getD i 0 ∧ it.2.2.isSome = true
    rw [core_sents_getD articles narrative sd ed w p i hiN]
    exact day_sentiment_isSome _ _

/-- Witness for the amended C6 at a concrete request. -/
theorem sentiment_presence_amended_witness :
    List.Forall (fun r =>
      (r.sentiment_percentile.isSome ↔ r.sentiment_mean.isSome) ∧
      (r.sentiment_mean.isSome → 0 < r.article_count) ∧
      (r.sentiment_mean.isSome ↔ ∃ it ∈ core_items [⟨0, "n", 0, some 1⟩] "n" 0 0 1 1,
        it.2.1 = r.date ∧ it.2.2.isSome))
      (narrative_metrics_core [⟨0, "n", 0, some 1⟩] "n" 0 0 1 1 1) :=
  sentiment_presence_amended [⟨0, "n", 0, some 1⟩] "n" 0 0 1 1 1

/-- Modelled from the spec claim for C3: the window of "the last P
defined values" — the trailing `pwin` elements of the subseries of defined
sentiment values up to and including position `i`. -/
def claimed_sent_window (sents : List (Option ℚ)) (pwin i : ℕ) : List ℚ :=
  let defined := (sents.take (i + 1)).filterMap id
  defined.drop (defined.length - pwin)

/-- C3 counterexample: with sentiments `[some 1, none, some 3]` and
window 2, the code computes the day-2 percentile over the defined values
of the last 2 calendar positions (window `[3]`, percentile 0), not over
the last 2 defined values (window `[1, 3]`, which would give 1). -/
theorem sentiment_window_counterexample :
    (sentiment_pcts [some 1, none, some 3] 2).getD 2 none ≠
      some (percent_rank (claimed_sent_window [some 1, none, some 3] 2 2) 3) := by
  have hl : (sentiment_pcts [some 1, none, some 3] 2).getD 2 none = some 0 := by
    simp [sentiment_pcts, trailing_slice, percent_rank]
  have hwin : claimed_sent_window [some 1, none, some 3] 2 2 = [1, 3] := by
    simp [claimed_sent_window]
  have hr : percent_rank (claimed_sent_window [some 1, none, some 3] 2 2) 3 = 1 := by
    rw [hwin]
    simp [percent_rank]
    norm_num
  rw [hl, hr]
  simp

/-- C3 (amended): on every returned row, the sentiment percentile is
absent when the day's sentiment mean is absent, and otherwise is the
percent-rank of the day's sentiment mean among the defined sentiment
values within the trailing window of up to P calendar positions of the
dense series ending at and including that day — zero-item days are
skipped (never counted as zero sentiment) but still occupy window
positions; the window is not "the last P defined values". -/
theorem sentiment_percentile_amended (articles : List Article) (narrative : String)
    (sd ed w p : ℤ) (e : ℚ) (i : ℕ)
    (hi : i < (narrative_metrics_core articles narrative sd ed w p e).length) :
    ((narrative_metrics_core articles narrative sd ed w p e).get
        ⟨i, hi⟩).sentiment_percentile =
      match (core_sents articles narrative sd ed w p).getD
          (core_history w p + i) none with
      | none => none
      | some x => some (percent_rank
          ((((core_sents articles narrative sd ed w p).take
              (core_history w p + i + 1)).drop
            (core_history w p + i + 1 - core_pwin p)).filterMap id) x) := by
  have hlen : (narrative_metrics_core articles narrative sd ed w p e).length =
      (all_rows articles narrative sd ed w p e).length - core_history w p := by
    rw [core_eq_drop, List.length_drop]
  have hj : core_history w p + i < (all_rows articles narrative sd ed w p e).length := by
    rw [hlen] at hi
    omega
  have hopt : (narrative_metrics_core articles narrative sd ed w p e)[i]? =
      (all_rows articles narrative sd ed w p e)[core_history w p + i]? := by
    rw [core_eq_drop]
    exact List.getElem?_drop _ _ _
  rw [List.getElem?_eq_getElem hi, List.getElem?_eq_getElem hj] at hopt
  have hget : (narrative_metrics_core articles narrative sd ed w p e).get ⟨i, hi⟩ =
      (all_rows articles narrative sd ed w p e)[core_history w p + i] :=
    Option.some.inj hopt
  rw [hget, all_rows_getElem articles narrative sd ed w p e _ hj]
  have hjs : core_history w p + i <
      (core_sents articles narrative sd ed w p).length := by
    rw [core_sents_length]
    rw [all_rows_length] at hj
    exact hj
  show (sentiment_pcts (core_sents articles narrative sd ed w p)
      (core_pwin p)).getD (core_history w p + i) none = _
  rw [sentiment_pcts_getD _ _ _ hjs]
  rfl

/-- Witness for the amended C3 at a concrete request. -/
theorem sentiment_percentile_amended_witness :
    0 < (narrative_metrics_core [] "n" 0 0 1 1 1).length ∧
    ((narrative_metrics_core [] "n" 0 0 1 1 1).get
        ⟨0, by decide⟩).sentiment_percentile =
      match (core_sents [] "n" 0 0 1 1).getD (core_history 1 1 + 0) none with
      | none => none
      | some x => some (percent_rank
          ((((core_sents [] "n" 0 0 1 1).take (core_history 1 1 + 0 + 1)).drop
            (core_history 1 1 + 0 + 1 - core_pwin 1)).filterMap id) x) :=
  ⟨by decide, sentiment_percentile_amended [] "n" 0 0 1 1 1 0 (by decide)⟩

/-- A pandas DataFrame as seen by `calculate_horizon_moves`: whether it
has a `date` column, its rows, and whether the date column has been
coerced by `pd.to_datetime` (the stored day numbers are already
normalized in this model, so coercion is a representation flag). -/
structure Frame where
  has_date_col : Bool
  rows : List HRow
  dates_coerced : Bool
deriving DecidableEq

/-- `metrics_df['date'] = pd.to_datetime(metrics_df['date'])` applied to a
frame value. -/
def coerce_dates (f : Frame) : Frame := { f with dates_coerced := true }

/-- The pandas object store: frames are heap cells addressed by index.
A caller passes a DataFrame by reference, `df.copy()` allocates a fresh
cell, and in-place column assignment mutates a single cell. -/
structure PandasHeap where
  frames : List Frame

/-- Dereference a frame. -/
def heap_get (s : PandasHeap) (r : ℕ) : Frame := s.frames.getD r ⟨false, [], false⟩

/-- `df.copy()`: allocate a fresh cell holding a copy of the value. -/
def heap_alloc (s : PandasHeap) (f : Frame) : PandasHeap × ℕ :=
  (⟨s.frames ++ [f]⟩, s.frames.length)

/-- In-place mutation of the cell at `r`. -/
def heap_set (s : PandasHeap) (r : ℕ) (f : Frame) : PandasHeap :=
  ⟨s.frames.set r f⟩

/-- `calculate_horizon_moves` with its DataFrame argument passed by
reference, as in the source: when a `date` column exists the code rebinds
`metrics_df` to `metrics_df.copy()` and then coerces the copy's date
column in place; the moves are computed from the working frame.  Returns
the final heap together with the moves. -/
def calculate_horizon_moves_heap (s : PandasHeap) (df_ref : ℕ) (target_date : ℤ)
    (horizons : List ℤ) : PandasHeap × List (ℤ × Option ℚ) :=
  let df0 := heap_get s df_ref
  if df0.has_date_col then
    let a := heap_alloc s df0
    let s2 := heap_set a.1 a.2 (coerce_dates (heap_get a.1 a.2))
    (s2, calculate_horizon_moves (heap_get s2 a.2).rows target_date horizons)
  else
    (s, calculate_horizon_moves df0.rows target_date horizons)

/-- C10: `calculate_horizon_moves` never mutates its input frame — after
the call, the caller's frame (date column included) is exactly what it
was, because the in-place date coercion hits a freshly allocated copy. -/
theorem horizon_moves_no_mutation (s : PandasHeap) (df_ref : ℕ) (target_date : ℤ)
    (horizons : List ℤ) (h : df_ref < s.frames.length) :
    heap_get (calculate_horizon_moves_heap s df_ref target_date horizons).1 df_ref =
      heap_get s df_ref := by
  rw [calculate_horizon_moves_heap]
  by_cases hc : (heap_get s df_ref).has_date_col
  · simp only [hc, if_true]
    show heap_get (heap_set ⟨s.frames ++ [heap_get s df_ref]⟩ s.frames.length _)
        df_ref = heap_get s df_ref
    rw [heap_get, heap_get, heap_set]
    show ((s.frames ++ [heap_get s df_ref]).set s.frames.length _).getD df_ref _ = _
    rw [List.getD_eq_getElem?_getD, List.getD_eq_getElem?_getD]
    rw [List.getElem?_set_ne (by omega)]
    rw [List.getElem?_append_left h]
  · simp [hc]

/-- Witness for C10 at a concrete heap. -/
theorem horizon_moves_no_mutation_witness :
    0 < (PandasHeap.mk [⟨true, [⟨0, 5⟩], false⟩]).frames.length ∧
    heap_get (calculate_horizon_moves_heap ⟨[⟨true, [⟨0, 5⟩], false⟩]⟩ 0 0 [1]).1 0 =
      heap_get ⟨[⟨true, [⟨0, 5⟩], false⟩]⟩ 0 :=
  ⟨by decide, horizon_moves_no_mutation ⟨[⟨true, [⟨0, 5⟩], false⟩]⟩ 0 0 [1] (by decide)⟩

/-- Modelled from the spec's words for C1: the prior window of day `t`
holds the counts of days `t-W .. t-1` (clipped at the start of history),
written via the index range rather than the SQL frame. -/
def spec_prior_window (counts : List ℕ) (w t : ℕ) : List ℕ :=
  (List.range' (t - w) (min w t)).map (fun i => counts.getD i 0)

/-- Modelled from the spec's words for C1: `baseline_n(t)` is the number
of (never-missing) counts among days `t-W .. t-1`. -/
def spec_baseline_n (counts : List ℕ) (w t : ℕ) : ℕ :=
  (spec_prior_window counts w t).length

/-- Modelled from the spec's words for C1: the arithmetic mean of the
prior window. -/
def spec_rolling_mean (counts : List ℕ) (w t : ℕ) : ℚ :=
  let ws := spec_prior_window counts w t
  (ws.sum : ℚ) / (ws.length : ℚ)

/-- Modelled from the spec's words for C1: the sample standard deviation
(divide by `n - 1`) of the prior window, and 0 when fewer than 2 prior
values exist. -/
noncomputable def spec_rolling_std (counts : List ℕ) (w t : ℕ) : ℝ :=
  let ws := spec_prior_window counts w t
  let m : ℚ := (ws.sum : ℚ) / (ws.length : ℚ)
  if ws.length < 2 then 0
  else Real.sqrt ((((ws.map (fun x => ((x : ℚ) - m) ^ 2)).sum /
    ((ws.length : ℚ) - 1) : ℚ) : ℝ))

/-- The SQL frame `ROWS BETWEEN w PRECEDING AND 1 PRECEDING` at position
`t` holds exactly the values of positions `t-w .. t-1`. -/
theorem prior_window_eq_spec (counts : List ℕ) (w t : ℕ) (ht : t ≤ counts.length) :
    prior_window counts w t = spec_prior_window counts w t := by
  apply List.ext_getElem
  · simp [prior_window, spec_prior_window]
    omega
  · intro i h1 h2
    have hlen1 : (prior_window counts w t).length = min w t := by
      simp [prior_window]
      omega
    have hlt : t - w + i < t := by
      rw [hlen1] at h1; omega
    have hlt2 : t - w + i < (counts.take t).length := by
      simp; omega
    simp only [prior_window]
    rw [List.getElem_drop, List.getElem_take]
    simp only [spec_prior_window]
    rw [List.getElem_map]
    rw [List.getElem_range'_1]
    rw [List.getD_eq_getElem counts 0 (by omega)]

/-- C1: for every day `t` of the dense daily series, the SQL intensity is
0 when the prior window is empty, and otherwise
`(item_count(t) - rolling_mean(t)) / max(rolling_std(t), epsilon)` where
the rolling mean and sample standard deviation are computed strictly from
days `t-W .. t-1` and the standard deviation is 0 when fewer than 2 prior
values exist. -/
theorem intensity_formula (counts : List ℕ) (win : ℕ) (eps : ℚ) (t : ℕ)
    (ht : t < counts.length) :
    sql_intensity counts win eps t =
      if spec_baseline_n counts win t = 0 then 0
      else ((counts.getD t 0 : ℝ) - ((spec_rolling_mean counts win t : ℚ) : ℝ)) /
        max (spec_rolling_std counts win t) ((eps : ℝ)) := by
  have hw := prior_window_eq_spec counts win t (le_of_lt ht)
  have hmean : (spec_prior_window counts win t).length ≠ 0 →
      ((sql_avg (spec_prior_window counts win t)).getD 0 : ℚ) =
        spec_rolling_mean counts win t := by
    intro h
    simp [sql_avg, h, spec_rolling_mean]
  have hstd : (sql_stddev_samp (spec_prior_window counts win t)).getD 0 =
      spec_rolling_std counts win t := by
    by_cases h2 : (spec_prior_window counts win t).length < 2
    · simp [sql_stddev_samp, h2, spec_rolling_std]
    · simp [sql_stddev_samp, h2, spec_rolling_std, samp_var]
  simp only [sql_intensity, hw, spec_baseline_n]
  by_cases h0 : (spec_prior_window counts win t).length = 0
  · simp [h0]
  · simp [h0, hmean h0, hstd]

/-- Witness for C1 at a concrete two-day series. -/
theorem intensity_formula_witness :
    1 < ([2, 5] : List ℕ).length ∧
    sql_intensity [2, 5] 1 1 1 =
      (if spec_baseline_n [2, 5] 1 1 = 0 then 0
       else ((([2, 5] : List ℕ).getD 1 0 : ℝ) -
          ((spec_rolling_mean [2, 5] 1 1 : ℚ) : ℝ)) /
        max (spec_rolling_std [2, 5] 1 1) (((1 : ℚ) : ℝ))) :=
  ⟨by decide, intensity_formula [2, 5] 1 1 1 (by decide)⟩

/-- C8: the endpoint returns an error exactly when a query parameter is
out of its declared bounds or the date range is inverted, and no metrics
are computed in that case; for parameters that pass validation the
handler's boundary clamp `max(1, min(window, 365))` (and its
percentile-window counterpart) is the identity, so validated values are
never coerced further inside the statistical stages. -/
theorem endpoint_validation (articles : List Article) (narrative : String)
    (start_date end_date : ℤ) (window percentile_window : ℤ) (epsilon : ℚ) :
    ((∃ msg, narrative_metrics_endpoint articles narrative start_date end_date
        window percentile_window epsilon = Except.error msg) ↔
      (valid_params window percentile_window epsilon = false ∨ end_date < start_date)) ∧
    (valid_params window percentile_window epsilon = true →
      max 1 (min window 365) = window ∧
      max 1 (min percentile_window 730) = percentile_window) := by
  constructor
  · by_cases hv : valid_params window percentile_window epsilon = false
    · simp [narrative_metrics_endpoint, hv]
    · by_cases hd : start_date > end_date
      · simp only [narrative_metrics_endpoint, hv, if_false, Bool.false_eq_true]
        simp [hd]
      · simp only [narrative_metrics_endpoint, hv, if_false, Bool.false_eq_true]
        simp [hd]
  · intro hv
    simp only [valid_params, Bool.and_eq_true, decide_eq_true_eq] at hv
    constructor <;> omega

/-- Witness for C8: a window of 0 (below the declared `ge=1` bound) is
rejected with an error. -/
theorem endpoint_validation_witness :
    ∃ msg, narrative_metrics_endpoint [] "n" 0 0 0 365 1 = Except.error msg :=
  ((endpoint_validation [] "n" 0 0 0 365 1).1).mpr (Or.inl (by decide))

end Narratives

namespace Narratives

/-- C2: percent_rank follows the open-interval RANK semantics: for a window
of size `n ≥ 2` it equals (count of strictly smaller values) / (n - 1), for
`n ≤ 1` it is exactly 0; elements tied at the same value get the same
percentile, and an all-equal window gives 0 for every element. -/
theorem percent_rank_spec (w : List ℚ) (x : ℚ) :
    (percent_rank w x =
      if w.length ≤ 1 then 0
      else ((w.countP (fun v => decide (v < x)) : ℚ)) / ((w.length : ℚ) - 1)) ∧
    (∀ y : ℚ, y = x → percent_rank w y = percent_rank w x) ∧
    ((∀ y ∈ w, ∀ z ∈ w, y = z) → ∀ y ∈ w, percent_rank w y = 0) := by
  refine ⟨?_, ?_, ?_⟩
  · by_cases h : w.length ≤ 1
    · simp [percent_rank, h]
    · simp [percent_rank, h]
  · intro y hy; rw [hy]
  · intro hall y hy
    by_cases h : w.length ≤ 1
    · simp [percent_rank, h]
    · have hcount : w.countP (fun v => decide (v < y)) = 0 := by
        rw [List.countP_eq_zero]
        intro a ha
        have : a = y := hall a ha y hy
        simp [this]
      simp [percent_rank, h, hcount]

/-- Witness for C2 at a concrete window. -/
theorem percent_rank_spec_witness :
    percent_rank [(3 : ℚ), 3, 3] 3 = 0 :=
  (percent_rank_spec [(3 : ℚ), 3, 3] 3).2.2
    (by intro y hy z hz; simp at hy hz; rw [hy, hz]) 3 (by simp)

/-- C4: calculate_horizon_moves returns a mapping keyed exactly by the
requested horizons; each horizon `h` maps to
`intensity(d) - intensity(d - h)` when both dates are found and to the
explicit absent marker `none` when either is missing; when the target date
itself is missing every horizon maps to `none`. -/
theorem calculate_horizon_moves_spec (df : List HRow) (d : ℤ) (hs : List ℤ) :
    ((calculate_horizon_moves df d hs).map Prod.fst = hs) ∧
    (∀ h ∈ hs,
      (h, match find_intensity df d, find_intensity df (d - h) with
          | some ti, some hi => some (ti - hi)
          | _, _ => none) ∈ calculate_horizon_moves df d hs) ∧
    (find_intensity df d = none →
      calculate_horizon_moves df d hs = hs.map (fun h => (h, none))) := by
  refine ⟨?_, ?_, ?_⟩
  · cases htd : find_intensity df d <;>
      simp [calculate_horizon_moves, htd, Function.comp_def]
  · intro h hh
    cases htd : find_intensity df d with
    | none =>
      simp only [calculate_horizon_moves, htd]
      exact List.mem_map.mpr ⟨h, hh, rfl⟩
    | some ti =>
      simp only [calculate_horizon_moves, htd]
      refine List.mem_map.mpr ⟨h, hh, ?_⟩
      cases hhd : find_intensity df (d - h) <;> simp [hhd]
  · intro htd
    simp [calculate_horizon_moves, htd]

/-- Witness for C4: a concrete series where one horizon date is present and
another is missing. -/
theorem calculate_horizon_moves_spec_witness :
    ((calculate_horizon_moves [⟨0, 5⟩, ⟨-3, 2⟩] 0 [3, 10]).map Prod.fst = [3, 10]) ∧
    ((3, match find_intensity [⟨0, 5⟩, ⟨-3, 2⟩] 0,
          find_intensity [⟨0, 5⟩, ⟨-3, 2⟩] (0 - 3) with
        | some ti, some hi => some (ti - hi)
        | _, _ => none) ∈ calculate_horizon_moves [⟨0, 5⟩, ⟨-3, 2⟩] 0 [3, 10]) :=
  ⟨(calculate_horizon_moves_spec [⟨0, 5⟩, ⟨-3, 2⟩] 0 [3, 10]).1,
   (calculate_horizon_moves_spec [⟨0, 5⟩, ⟨-3, 2⟩] 0 [3, 10]).2.1 3 (by decide)⟩

/-- C5: an alert is returned exactly for the horizons whose move is present
and strictly exceeds the threshold in absolute value, and it carries the
signed move and its absolute value. -/
theorem detect_alerts_spec (moves : List (ℤ × Option ℚ)) (threshold : ℚ) (a : Alert) :
    a ∈ detect_alerts moves threshold ↔
      (a.horizon, some a.move) ∈ moves ∧ threshold < |a.move| ∧
        a.abs_move = |a.move| := by
  constructor
  · intro ha
    obtain ⟨p, hp, hf⟩ := List.mem_filterMap.mp ha
    cases hm : p.2 with
    | none => rw [hm] at hf; simp at hf
    | some m =>
      rw [hm] at hf
      by_cases hgt : |m| > threshold
      · simp only [hgt, if_pos, Option.some.injEq] at hf
        subst hf
        refine ⟨?_, hgt, rfl⟩
        have : (p.1, some m) = p := by rw [← hm]
        rw [this]
        exact hp
      · simp [hgt] at hf
  · rintro ⟨hmem, hgt, habs⟩
    refine List.mem_filterMap.mpr ⟨(a.horizon, some a.move), hmem, ?_⟩
    simp only [hgt, if_pos]
    cases a with
    | mk h m ab => simp_all

/-- Witness for C5: concrete moves with an alerting horizon, a boundary
horizon and a missing horizon. -/
theorem detect_alerts_spec_witness :
    (⟨5, 6/5, 6/5⟩ : Alert) ∈
      detect_alerts [(5, some (6/5)), (7, some (-1)), (10, none)] 1 := by
  refine (detect_alerts_spec [(5, some (6/5)), (7, some (-1)), (10, none)] 1
    ⟨5, 6/5, 6/5⟩).mpr ?_
  have habs : |(6/5 : ℚ)| = 6/5 := abs_of_pos (by norm_num)
  refine ⟨List.mem_cons_self _ _, ?_, ?_⟩
  · show (1 : ℚ) < |(6/5 : ℚ)|
    rw [habs]; norm_num
  · show (6/5 : ℚ) = |(6/5 : ℚ)|
    rw [habs]

end Narratives
